import Mathlib

/-!
Verification development for the plaintext-calendar repository.

All instants are modelled as `Int` milliseconds since the Unix epoch (the value
an ISO-8601 UTC string denotes; `Date.prototype.toISOString` is injective on
valid dates, so an event's `start`/`end` strings are modelled by the instants
they denote).  The process-local timezone used by JavaScript `Date` accessors
such as `setHours` is modelled as a fixed offset `off` in milliseconds east of
UTC.  JavaScript `Date` validity (a date is invalid when its time value exceeds
8.64e15 ms in absolute value) is modelled exactly where the source checks it on
a value that the input text can drive out of range (`isNaN(endTime.getTime())`,
nlpService.ts line 273); the reference instant `now` is assumed to be a valid
present-day clock reading, which the theorems record as an explicit hypothesis
where they quantify over it.

The regular-expression matching done by the source via JavaScript `String.match`
is embedded with a small backtracking engine (`RE`, `reM`) whose preference
order mirrors the ECMAScript one: leftmost match position wins, alternation
tries the left branch first, greedy repetition consumes as much as possible
first, lazy repetition as little as possible first, and `?` tries to match
first.  Every star/plus in the source patterns repeats a single-character
class, so repetition is represented by character-class stars only.
-/

/-- Character test for the JavaScript regex class `\d`. -/
def isDigitC (c : Char) : Bool := decide (48 ≤ c.toNat) && decide (c.toNat ≤ 57)

/-- Character test for the JavaScript regex class `\s` (ASCII whitespace). -/
def isSpaceC (c : Char) : Bool :=
  c == ' ' || c == Char.ofNat 9 || c == Char.ofNat 10 || c == Char.ofNat 13 || c == Char.ofNat 11 || c == Char.ofNat 12

/-- Character test for the JavaScript regex class `[a-zA-Z]`. -/
def isAlphaC (c : Char) : Bool :=
  (decide (97 ≤ c.toNat) && decide (c.toNat ≤ 122)) ||
  (decide (65 ≤ c.toNat) && decide (c.toNat ≤ 90))

/-- ASCII lower-casing, as JavaScript `toLowerCase` acts on the ASCII inputs used here. -/
def lowC (c : Char) : Char :=
  if decide (65 ≤ c.toNat) && decide (c.toNat ≤ 90) then Char.ofNat (c.toNat + 32) else c

/-- ASCII upper-casing, as JavaScript `toUpperCase` acts on the ASCII inputs used here. -/
def upC (c : Char) : Char :=
  if decide (97 ≤ c.toNat) && decide (c.toNat ≤ 122) then Char.ofNat (c.toNat - 32) else c

/-- Character class `[a-zA-Z\s]` (the lazy title capture group). -/
def isAlphaSpC (c : Char) : Bool := isAlphaC c || isSpaceC c

/-- Character class `[a-zA-Z0-9\s]` (the lazy location capture group). -/
def isAlnumSpC (c : Char) : Bool := isAlphaC c || isDigitC c || isSpaceC c

/-- Regular expressions as used by the source patterns.  Repetition is only
ever applied to single-character classes in the source, which the constructors
`manyG` (greedy star) and `manyL` (lazy star) reflect. -/
inductive RE where
  | eps : RE
  | eol : RE
  | cls : (Char → Bool) → RE
  | cat : RE → RE → RE
  | alt : RE → RE → RE
  | opt : RE → RE
  | manyG : (Char → Bool) → RE
  | manyL : (Char → Bool) → RE
  | group : Nat → RE → RE

/-- Numbered capture groups: group index paired with the captured characters. -/
abbrev Caps := List (Nat × List Char)

/-- A match attempt result: the remaining input after the match plus captures. -/
abbrev MRes := Option (List Char × Caps)

/-- The suffixes of `s` reachable by consuming `0, 1, 2, ...` leading
characters satisfying `p`, in order of increasing consumption. -/
def pStates (p : Char → Bool) : List Char → List (List Char)
  | [] => [[]]
  | c :: t => (c :: t) :: (if p c then pStates p t else [])

/-- Try the continuation on each state in order, returning the first success
(this realizes the backtracking preference order of a repetition). -/
def tryStates (k : List Char → Caps → MRes) (caps : Caps) : List (List Char) → MRes
  | [] => none
  | s :: ss =>
    match k s caps with
    | some r => some r
    | none => tryStates k caps ss

/-- Backtracking matcher in continuation-passing style.  `reM r s caps k`
matches `r` against a prefix of `s`, extending `caps`, and calls `k` on the
rest; on failure of `k` the next alternative of `r` is tried, mirroring the
ECMAScript backtracking order. -/
def reM : RE → List Char → Caps → (List Char → Caps → MRes) → MRes
  | .eps, s, caps, k => k s caps
  | .eol, s, caps, k => if s.isEmpty then k s caps else none
  | .cls p, s, caps, k =>
    match s with
    | [] => none
    | c :: t => if p c then k t caps else none
  | .cat a b, s, caps, k => reM a s caps (fun s2 c2 => reM b s2 c2 k)
  | .alt a b, s, caps, k =>
    match reM a s caps k with
    | some r => some r
    | none => reM b s caps k
  | .opt a, s, caps, k =>
    match reM a s caps k with
    | some r => some r
    | none => k s caps
  | .manyG p, s, caps, k => tryStates k caps (pStates p s).reverse
  | .manyL p, s, caps, k => tryStates k caps (pStates p s)
  | .group n a, s, caps, k =>
    reM a s caps (fun s2 c2 => k s2 ((n, s.take (s.length - s2.length)) :: c2))

/-- Match `r` at the start of `s` (used for `^`-anchored patterns). -/
def reRun (r : RE) (s : List Char) : MRes :=
  reM r s [] (fun s2 caps => some (s2, caps))

/-- Leftmost search, as JavaScript `String.match` without `^`: try each start
position from the left, returning the matched characters and the captures. -/
def reSearch (r : RE) : List Char → Option (List Char × Caps)
  | [] =>
    match reRun r [] with
    | some (_, caps) => some ([], caps)
    | none => none
  | c :: t =>
    match reRun r (c :: t) with
    | some (rest, caps) => some ((c :: t).take ((c :: t).length - rest.length), caps)
    | none => reSearch r t

/-- Look up capture group `n` (`match[n]`); `none` models `undefined`. -/
def capGet (caps : Caps) (n : Nat) : Option (List Char) :=
  (caps.find? (fun x => x.1 == n)).map (fun x => x.2)

/-- Case-insensitive literal character (all source patterns carry the `i` flag
except the Ollama `Output:` pattern). -/
def rLit (c : Char) : RE := .cls (fun x => lowC x == c)

/-- Case-sensitive literal character. -/
def rLitX (c : Char) : RE := .cls (fun x => x == c)

/-- Case-insensitive literal word. -/
def rStr (w : String) : RE := w.data.foldr (fun c r => RE.cat (rLit c) r) RE.eps

/-- Case-sensitive literal word. -/
def rStrX (w : String) : RE := w.data.foldr (fun c r => RE.cat (rLitX c) r) RE.eps

/-- Sequence a list of regexes. -/
def rSeq (l : List RE) : RE := l.foldr RE.cat RE.eps

/-- Ordered alternation of a list of regexes (left branch preferred). -/
def rAny (l : List RE) : RE := l.foldr RE.alt (RE.cls (fun _ => false))

/-- Greedy `p+`. -/
def rPlusG (p : Char → Bool) : RE := RE.cat (RE.cls p) (RE.manyG p)

/-- Lazy `p+?`. -/
def rPlusL (p : Char → Bool) : RE := RE.cat (RE.cls p) (RE.manyL p)

/-- `\s+`. -/
def rSp1 : RE := rPlusG isSpaceC

/-- `\d+`. -/
def rDigits : RE := rPlusG isDigitC

/-- `\d{1,2}` (greedy: two digits preferred). -/
def rD12 : RE := RE.cat (RE.cls isDigitC) (RE.opt (RE.cls isDigitC))

/-- `\d{2}`. -/
def rD2 : RE := RE.cat (RE.cls isDigitC) (RE.cls isDigitC)

/-- `(am|pm)` body. -/
def rAmPm : RE := RE.alt (rStr "am") (rStr "pm")

/-- `hours?` / `minutes?`-style word with optional trailing `s`. -/
def rWordS (w : String) : RE := RE.cat (rStr w) (RE.opt (rLit 's'))

/-- The event-noun alternation of nlpService.ts line 152 / line 193. -/
def meetKw : RE := rAny [rStr "meeting", rStr "appointment", rStr "session", rStr "call",
  rStr "conference", rStr "interview", rStr "lunch", rStr "dinner", rStr "breakfast",
  rStr "workout", rStr "gym", rStr "class", rStr "lesson", rStr "training",
  rStr "workshop", rStr "seminar"]

/-- Title pattern 1 of nlpService.ts line 146 (anchored). -/
def doPatternRE : RE := rSeq [
  RE.opt (rSeq [rStr "i", rSp1]),
  RE.opt (rSeq [rStr "want", rSp1, rStr "to", rSp1]),
  RE.opt (rSeq [rStr "need", rSp1, rStr "to", rSp1]),
  RE.opt (rSeq [rStr "have", rSp1, rStr "to", rSp1]),
  RE.opt (rSeq [rStr "should", rSp1]),
  RE.opt (rSeq [rStr "can", rSp1]),
  RE.opt (rSeq [rStr "will", rSp1]),
  RE.opt (rSeq [rStr "do", rSp1]),
  RE.group 1 (rPlusL isAlphaSpC),
  RE.alt
    (rSeq [rSp1, rAny [rStr "tomorrow", rStr "today", rStr "at", rStr "for",
      rWordS "hour", rWordS "minute", rStr "pm", rStr "am", rDigits,
      rSeq [rDigits, rLitX (Char.ofNat 58), rDigits]]])
    (rSeq [RE.manyG isSpaceC, RE.eol])]

/-- Title pattern 2 of nlpService.ts line 152. -/
def meetingPatternRE : RE := rSeq [RE.group 1 (rPlusL isAlphaSpC), rSp1, meetKw]

/-- `(?:hours?|hrs?|hour)`. -/
def hourWordRE : RE := rAny [rWordS "hour", rWordS "hr", rStr "hour"]

/-- Duration pattern 1 of nlpService.ts line 176. -/
def durPat1 : RE := rSeq [RE.group 1 rDigits, RE.manyG isSpaceC, hourWordRE]

/-- Duration pattern 2 of nlpService.ts line 177. -/
def durPat2 : RE := rSeq [rStr "for", rSp1, RE.group 1 rDigits, RE.manyG isSpaceC, hourWordRE]

/-- Duration pattern 3 of nlpService.ts line 178. -/
def durPat3 : RE := rSeq [RE.group 1 rDigits, RE.manyG isSpaceC,
  RE.alt (rStr "hour") (rStr "hr"), rSp1, RE.alt (rStr "long") (rStr "duration")]

/-- `(?:at|@|in)`. -/
def atInRE : RE := rAny [rStr "at", rStr "@", rStr "in"]

/-- Location pattern 1 of nlpService.ts line 192. -/
def locPat1 : RE := rSeq [atInRE, rSp1, RE.group 1 (rPlusL isAlnumSpC),
  rAny [rSeq [rSp1, rAny [rStr "tomorrow", rStr "today", rWordS "hour", rWordS "minute",
    rStr "pm", rStr "am", rDigits]], RE.cls isSpaceC, RE.eol]]

/-- Location pattern 2 of nlpService.ts line 193. -/
def locPat2 : RE := rSeq [meetKw, rSp1, atInRE, rSp1, RE.group 1 (rPlusL isAlnumSpC),
  RE.alt (RE.cls isSpaceC) RE.eol]

/-- Location pattern 3 of nlpService.ts line 194. -/
def locPat3 : RE := rSeq [rAny [rSeq [rStr "go", rSp1, rStr "to"], rStr "visit", rStr "see"],
  rSp1, RE.group 1 (rPlusL isAlnumSpC), RE.alt (RE.cls isSpaceC) RE.eol]

/-- Time pattern 1 of nlpService.ts line 230. -/
def timePat1 : RE := rSeq [RE.group 1 rD12, rLitX (Char.ofNat 58), RE.group 2 rD2,
  RE.manyG isSpaceC, RE.opt (RE.group 3 rAmPm)]

/-- Time pattern 2 of nlpService.ts line 231. -/
def timePat2 : RE := rSeq [RE.group 1 rD12, RE.manyG isSpaceC, RE.group 2 rAmPm]

/-- Time pattern 3 of nlpService.ts line 232. -/
def timePat3 : RE := rSeq [rStr "at", rSp1, RE.group 1 rD12, RE.opt (rLitX (Char.ofNat 58)),
  RE.opt (RE.group 2 rD2), RE.manyG isSpaceC, RE.opt (RE.group 3 rAmPm)]

/-- Time pattern 4 of nlpService.ts line 233 (`o'clock` spelled with code point 39). -/
def timePat4 : RE := rSeq [RE.group 1 rD12, RE.manyG isSpaceC,
  RE.alt (rSeq [rStr "o", rLitX (Char.ofNat 39), rStr "clock"]) (rStr "oclock")]

/-- JavaScript `parseInt` on the strings this code feeds it: skip leading
whitespace, then read a leading run of digits; `none` models `NaN`. -/
def jsParseInt (cs : List Char) : Option Nat :=
  let cs2 := cs.dropWhile isSpaceC
  let ds := cs2.takeWhile isDigitC
  if ds.isEmpty then none
  else some (ds.foldl (fun a c => a * 10 + (c.toNat - 48)) 0)

/-- JavaScript `String.prototype.trim` on ASCII input. -/
def trimL (cs : List Char) : List Char :=
  ((cs.dropWhile isSpaceC).reverse.dropWhile isSpaceC).reverse

/-- JavaScript `String.prototype.split(sep)` for a single-character separator. -/
def splitCh (sep : Char) : List Char → List (List Char)
  | [] => [[]]
  | c :: t =>
    if c == sep then [] :: splitCh sep t
    else
      match splitCh sep t with
      | [] => [[c]]
      | w :: ws => (c :: w) :: ws

/-- Substring containment (JavaScript `String.prototype.includes`). -/
def containsSub : List Char → List Char → Bool
  | [], sub => sub.isEmpty
  | c :: t, sub => sub.isPrefixOf (c :: t) || containsSub t sub

/-- The extracted event produced by the pipeline (nlpService.ts).  `start` and
`endT` are the instants denoted by the ISO strings the source returns. -/
structure EventData where
  title : String
  start : Int
  endT : Int
  location : String
  description : String
deriving DecidableEq, Repr

/-- JavaScript `Date` validity range: |time value| ≤ 8.64e15 ms. -/
def dateInRange (t : Int) : Bool := decide (-8640000000000000 ≤ t) && decide (t ≤ 8640000000000000)

/-- JavaScript `d.setHours(h, m, 0, 0)` under a fixed process-local offset
`off` (ms east of UTC): keep the local calendar day of `t`, set the local
time-of-day to `h:m:00.000`, and return the resulting UTC instant. -/
def jsSetHours (t off h m : Int) : Int :=
  let lt := t + off
  lt - lt.emod 86400000 + h * 3600000 + m * 60000 - off

/-- Title extraction, patterns 1 and 2 plus the content-word fallback and the
final capitalization (nlpService.ts lines 142-171). -/
def stopWords : List (List Char) := ["the".data, "and".data, "for".data, "with".data,
  "at".data, "in".data, "on".data, "to".data, "of".data, "a".data, "an".data]

/-- Test for `/^\d+$/`. -/
def allDigits (cs : List Char) : Bool := !cs.isEmpty && cs.all isDigitC

/-- Test for `/^(am|pm|hours?|minutes?)$/i`. -/
def unitWord (cs : List Char) : Bool :=
  let l := cs.map lowC
  l == "am".data || l == "pm".data || l == "hour".data || l == "hours".data ||
  l == "minute".data || l == "minutes".data

/-- Capitalize each space-separated word: first character upper-cased, rest kept. -/
def capWord : List Char → List Char
  | [] => []
  | c :: t => upC c :: t

/-- The capitalization step of nlpService.ts line 171. -/
def capitalizeWords (cs : List Char) : List Char :=
  List.intercalate [' '] ((splitCh ' ' cs).map capWord)

/-- `match[0].split(' ').pop()` of nlpService.ts line 154. -/
def lastWord (cs : List Char) : List Char := ((splitCh ' ' cs).getLast?).getD []

/-- Title extraction of nlpService.ts lines 142-171. -/
def titleOf (text : String) : String :=
  let cs := text.data
  let t1 : List Char :=
    match reRun doPatternRE cs with
    | some (_, caps) =>
      match capGet caps 1 with
      | some g => if (trimL g).isEmpty then "Event".data else trimL g
      | none => "Event".data
    | none => "Event".data
  let t2 : List Char :=
    match reSearch meetingPatternRE cs with
    | some (m0, caps) =>
      match capGet caps 1 with
      | some g => if (trimL g).isEmpty then t1 else trimL g ++ [' '] ++ lastWord m0
      | none => t1
    | none => t1
  let t3 : List Char :=
    if t2 == "Event".data then
      let words := (splitCh ' ' cs).filter (fun w =>
        decide (w.length > 2) && !(stopWords.contains (w.map lowC)) &&
        !(allDigits w) && !(unitWord w))
      if words.isEmpty then t2 else List.intercalate [' '] (words.take 3)
    else t2
  String.mk (capitalizeWords t3)

/-- Duration resolution: the first of the three duration patterns that
matches yields `parseInt(match[1])`; `none` when no pattern matches
(nlpService.ts lines 174-187). -/
def durCap (r : RE) (cs : List Char) : Option Nat :=
  match reSearch r cs with
  | none => none
  | some (_, caps) => (capGet caps 1).bind jsParseInt

/-- The duration scan over the three patterns, in source order. -/
def durMatchOpt (text : String) : Option Nat :=
  match durCap durPat1 text.data with
  | some n => some n
  | none =>
    match durCap durPat2 text.data with
    | some n => some n
    | none => durCap durPat3 text.data

/-- `durationHours` after the scan loop: default 1 when no pattern matched. -/
def durationHoursOf (text : String) : Nat := (durMatchOpt text).getD 1

/-- One location pattern attempt: succeeds only when the trimmed capture is
non-empty, as the source requires before assigning (nlpService.ts line 199). -/
def locCap (r : RE) (cs : List Char) : Option (List Char) :=
  match reSearch r cs with
  | none => none
  | some (_, caps) =>
    match capGet caps 1 with
    | none => none
    | some g => if (trimL g).isEmpty then none else some (trimL g)

/-- Location extraction of nlpService.ts lines 189-203. -/
def locationOf (text : String) : String :=
  match locCap locPat1 text.data with
  | some l => String.mk l
  | none =>
    match locCap locPat2 text.data with
    | some l => String.mk l
    | none =>
      match locCap locPat3 text.data with
      | some l => String.mk l
      | none => "TBD"

/-- Date keyword resolution of nlpService.ts lines 205-217 (`eventDate`). -/
def dateOf (text : String) (now tomorrow : Int) : Int :=
  let tl := text.data.map lowC
  if containsSub tl "today".data then now
  else if containsSub tl "tomorrow".data then tomorrow
  else if containsSub tl "next week".data then now + 7 * 86400000
  else if containsSub tl "this week".data then now
  else tomorrow

/-- Validation and am/pm normalization of one time-pattern match
(nlpService.ts lines 239-257); `none` models `continue`. -/
def hmAdjust (h0 m : Nat) (amp : Option (List Char)) : Option (Nat × Nat) :=
  if h0 > 23 then none
  else if m > 59 then none
  else
    let h1 := if amp == some ['p', 'm'] && !(h0 == 12) then h0 + 12
      else if amp == some ['a', 'm'] && h0 == 12 then 0
      else h0
    if h1 > 23 then none else some (h1, m)

/-- Try one time pattern: `hours = parseInt(match[1])`,
`minutes = match[2] ? parseInt(match[2]) : 0`, `ampm = match[3]?.toLowerCase()`
(nlpService.ts lines 236-262). -/
def tryTimePat (r : RE) (cs : List Char) : Option (Nat × Nat) :=
  match reSearch r cs with
  | none => none
  | some (_, caps) =>
    match (capGet caps 1).bind jsParseInt with
    | none => none
    | some h0 =>
      match (match capGet caps 2 with | none => some 0 | some mcs => jsParseInt mcs) with
      | none => none
      | some m => hmAdjust h0 m ((capGet caps 3).map (fun l => l.map lowC))

/-- The time-pattern loop, first pattern whose match validates wins. -/
def findTime (cs : List Char) : Option (Nat × Nat) :=
  match tryTimePat timePat1 cs with
  | some r => some r
  | none =>
    match tryTimePat timePat2 cs with
    | some r => some r
    | none =>
      match tryTimePat timePat3 cs with
      | some r => some r
      | none => tryTimePat timePat4 cs

/-- `eventTime` of nlpService.ts lines 219-262: default local 14:00 on
`eventDate`, overridden by the first validating time pattern. -/
def timeOf (text : String) (eventDate off : Int) : Int :=
  match findTime text.data with
  | none => jsSetHours eventDate off 14 0
  | some hm => jsSetHours eventDate off (hm.1 : Int) (hm.2 : Int)

/-- The deterministic fallback extractor `createSmartFallback`
(nlpService.ts lines 123-301).  `userTimezone` is accepted but never read,
exactly as in the source; `off` is the process-local UTC offset that the
JavaScript `Date` mutators implicitly use.  The `isNaN` guard on `endTime`
(line 273, reachable when the parsed duration pushes the end past the Date
range) is modelled by `dateInRange`; the remaining `isNaN` guards are
unreachable for a valid present-day `now`, which theorems assume. -/
def createSmartFallback (text : String) (now off : Int) (userTimezone : Option String) : EventData :=
  let tomorrow := now + 86400000
  let durationHours := durationHoursOf text
  let eventDate := dateOf text now tomorrow
  let eventTime := timeOf text eventDate off
  let endRaw := eventTime + (durationHours : Int) * 3600000
  let endTime := if dateInRange endRaw then endRaw else eventTime + 3600000
  { title := titleOf text, start := eventTime, endT := endTime,
    location := locationOf text, description := text }

/-- Outcome of the single external completion call made by a strategy. -/
inductive CallOut where
  | fail : CallOut
  | ok : String → CallOut
deriving DecidableEq, Repr

/-- The truthiness of the `title`/`start`/`end` fields of the JSON object an
LLM response parses to (`JSON.parse` itself is an external built-in and is
supplied as an oracle argument below). -/
structure JsonVal where
  hasTitle : Bool
  hasStart : Bool
  hasEnd : Bool
deriving DecidableEq, Repr

/-- Result of `processTextToEvent`: either the LLM-parsed object or the
deterministic fallback event; the surrounding `Option` models the JavaScript
function returning `undefined`. -/
inductive NLPResult where
  | llm : JsonVal → NLPResult
  | fallback : EventData → NLPResult
deriving DecidableEq, Repr

/-- `/\{[\s\S]*\}/`: first opening brace through the last closing brace. -/
def jsonBraceRE : RE := rSeq [rLitX (Char.ofNat 123), RE.manyG (fun _ => true), rLitX (Char.ofNat 125)]

/-- `/Output:\s*(\{[\s\S]*\})/` (case-sensitive, nlpService.ts line 93). -/
def ollamaOutRE : RE := rSeq [rStrX "Output:", RE.manyG isSpaceC,
  RE.group 1 (rSeq [rLitX (Char.ofNat 123), RE.manyG (fun _ => true), rLitX (Char.ofNat 125)])]

/-- `processTextToEvent` (nlpService.ts lines 8-121).  `openaiSet` models a
configured OpenAI client, `ollamaSet` a configured Ollama client, `call` the
outcome of the one external completion call, and `parseJ` the `JSON.parse`
built-in composed with field extraction (`none` models a parse exception).
`none` as the overall result models the JavaScript function returning
`undefined`, which happens when the OpenAI branch finds no JSON, fails to
parse it, or parses an object missing required fields: those paths fall off
the end of the `try` block without returning. -/
def processTextToEvent (openaiSet ollamaSet : Bool) (call : CallOut)
    (parseJ : String → Option JsonVal)
    (text : String) (now off : Int) (userTimezone : Option String) : Option NLPResult :=
  if openaiSet then
    match call with
    | .fail => some (.fallback (createSmartFallback text now off userTimezone))
    | .ok resp =>
      let responseText := trimL resp.data
      match reSearch jsonBraceRE responseText with
      | none => none
      | some (m0, _) =>
        match parseJ (String.mk m0) with
        | none => none
        | some v =>
          if v.hasTitle && v.hasStart && v.hasEnd then some (.llm v) else none
  else if ollamaSet then
    match call with
    | .fail => some (.fallback (createSmartFallback text now off userTimezone))
    | .ok resp =>
      let responseText := trimL resp.data
      let jm : Option (List Char) :=
        match reSearch jsonBraceRE responseText with
        | some (m0, _) => some m0
        | none =>
          match reSearch ollamaOutRE responseText with
          | some (_, caps) => capGet caps 1
          | none => none
      match jm with
      | none => some (.fallback (createSmartFallback text now off userTimezone))
      | some m0 =>
        match parseJ (String.mk m0) with
        | none => some (.fallback (createSmartFallback text now off userTimezone))
        | some v =>
          if v.hasTitle && v.hasStart && v.hasEnd then some (.llm v)
          else some (.fallback (createSmartFallback text now off userTimezone))
  else some (.fallback (createSmartFallback text now off userTimezone))

/-- A half-open time interval `[start, endT)` (named `TInterval` because Mathlib already owns the name `Interval`). -/
structure TInterval where
  start : Int
  endT : Int
deriving DecidableEq, Repr

/-- The overlap test used verbatim in both availability checks
(auth.ts line 197 and line 243): `a.start < b.end AND a.end > b.start`. -/
def overlapsI (a b : TInterval) : Bool :=
  decide (a.start < b.endT) && decide (a.endT > b.start)

/-- A Google-calendar event time: either `start.dateTime` (a timed instant)
or `start.date` (a date-only value, for all-day events, given as a civil day
index).  JavaScript `new Date("YYYY-MM-DD")` parses a date-only string as
UTC midnight of that day, i.e. `day * 86400000`. -/
inductive GTime where
  | dt : Int → GTime
  | allDay : Int → GTime
deriving DecidableEq, Repr

/-- The instant `new Date(event.start?.dateTime || event.start?.date)` denotes. -/
def gTimeMs : GTime → Int
  | .dt t => t
  | .allDay d => d * 86400000

/-- An existing calendar event as read from the calendar listing. -/
structure GEvent where
  startT : GTime
  endTT : GTime
deriving DecidableEq, Repr

/-- The interval an existing event occupies in the source's comparisons
(auth.ts lines 191-192 and 241-242). -/
def evInterval (e : GEvent) : TInterval := ⟨gTimeMs e.startT, gTimeMs e.endTT⟩

/-- The availability verdict (auth.ts interface `AvailabilityCheck`);
`suggestedTimes = none` models the optional field being absent. -/
structure AvailabilityCheck where
  isAvailable : Bool
  conflicts : List GEvent
  suggestedTimes : Option (List Int)
deriving DecidableEq, Repr

/-- The candidate hours scanned by `generateSuggestedTimes`
(auth.ts line 234: `for (let hour = 9; hour <= 17; hour += 2)`), each set on
the local calendar day of `originalStart`. -/
def hourCandidates (originalStart off : Int) : List Int :=
  [9, 11, 13, 15, 17].map (fun h => jsSetHours originalStart off h 0)

/-- The suggestion scan loop of auth.ts lines 234-250: append each
conflict-free candidate, stopping as soon as 3 suggestions are collected. -/
def suggLoop (dur : Int) (ex : List GEvent) : List Int → List Int → List Int
  | [], acc => acc
  | c :: rest, acc =>
    if ex.any (fun e => overlapsI (evInterval e) ⟨c, c + dur⟩) then
      suggLoop dur ex rest acc
    else
      if 3 ≤ (acc ++ [c]).length then acc ++ [c]
      else suggLoop dur ex rest (acc ++ [c])

/-- A candidate start is free when its interval of the original duration
overlaps no existing event. -/
def noConf (dur : Int) (ex : List GEvent) (c : Int) : Bool :=
  !(ex.any (fun e => overlapsI (evInterval e) ⟨c, c + dur⟩))

/-- `generateSuggestedTimes` (auth.ts lines 224-261): scan the fixed hours of
the candidate's day; if the scan produced nothing, emit 09:00 of the next day
unconditionally. -/
def generateSuggestedTimes (originalStart originalEnd : Int) (existingEvents : List GEvent) (off : Int) : List Int :=
  let duration := originalEnd - originalStart
  let suggestions := suggLoop duration existingEvents (hourCandidates originalStart off) []
  if suggestions.isEmpty then [jsSetHours (originalStart + 86400000) off 9 0]
  else suggestions

/-- `checkAvailability` (auth.ts lines 163-222).  `readResult` models the
calendar read: `none` when `calendar.events.list` throws (the `catch` branch,
fail open), `some evs` when it returns `evs`. -/
def checkAvailability (readResult : Option (List GEvent)) (startTime endTime off : Int) : AvailabilityCheck :=
  match readResult with
  | none => ⟨true, [], none⟩
  | some existingEvents =>
    if existingEvents.isEmpty then ⟨true, [], none⟩
    else
      let conflicts := existingEvents.filter (fun e => overlapsI (evInterval e) ⟨startTime, endTime⟩)
      if conflicts.isEmpty then ⟨true, [], none⟩
      else ⟨false, conflicts, some (generateSuggestedTimes startTime endTime existingEvents off)⟩

/-- Free slots among the fixed-hour candidates, in scan order. -/
def freeSlots (s e : Int) (ex : List GEvent) (off : Int) : List Int :=
  (hourCandidates s off).filter (fun c => noConf (e - s) ex c)

/-- The all-day expansion the specification describes, stated from its words
for comparison with the code: "All-day events are expanded to
`[localMidnight, nextLocalMidnight)` before testing" — local midnight of day
`d` in a timezone `off` ms east of UTC is the UTC instant `d*86400000 - off`.
This definition follows the spec, not the source, and exists only to be
compared against `evInterval`. -/
def allDayLocalExpandSpec (startDay endDay off : Int) : TInterval :=
  ⟨startDay * 86400000 - off, endDay * 86400000 - off⟩

/-! ## Helper lemmas -/

/-- The extracted start instant, by unfolding `createSmartFallback`. -/
theorem createSmartFallback_start (text : String) (now off : Int) (tz : Option String) :
    (createSmartFallback text now off tz).start
      = timeOf text (dateOf text now (now + 86400000)) off := rfl

/-- The extracted end instant, by unfolding `createSmartFallback`. -/
theorem createSmartFallback_endT (text : String) (now off : Int) (tz : Option String) :
    (createSmartFallback text now off tz).endT
      = (if dateInRange (timeOf text (dateOf text now (now + 86400000)) off
            + (durationHoursOf text : Int) * 3600000)
         then timeOf text (dateOf text now (now + 86400000)) off
            + (durationHoursOf text : Int) * 3600000
         else timeOf text (dateOf text now (now + 86400000)) off + 3600000) := rfl

/-- The suggestion scan with early exit equals taking the first three
conflict-free candidates, generalized over the accumulator. -/
theorem suggLoop_take (dur : Int) (ex : List GEvent) :
    ∀ (cands : List Int) (acc : List Int), acc.length < 3 →
      suggLoop dur ex cands acc
        = acc ++ (cands.filter (fun c => noConf dur ex c)).take (3 - acc.length) := by
  intro cands
  induction cands with
  | nil => intro acc _; simp [suggLoop]
  | cons c rest ih =>
    intro acc hacc
    by_cases hc : (ex.any (fun e => overlapsI (evInterval e) ⟨c, c + dur⟩)) = true
    · have hnc : noConf dur ex c = false := by simp [noConf, hc]
      simp only [suggLoop, hc, if_true, List.filter_cons, hnc, if_false, Bool.false_eq_true]
      exact ih acc hacc
    · have hcf : (ex.any (fun e => overlapsI (evInterval e) ⟨c, c + dur⟩)) = false := by
        revert hc
        cases ex.any (fun e => overlapsI (evInterval e) ⟨c, c + dur⟩) <;> simp
      have hnc : noConf dur ex c = true := by simp [noConf, hcf]
      by_cases h3 : 3 ≤ (acc ++ [c]).length
      · have hlen : acc.length = 2 := by
          simp only [List.length_append, List.length_cons, List.length_nil] at h3
          omega
        have htake : 3 - acc.length = 1 := by omega
        simp only [suggLoop, hcf, Bool.false_eq_true, if_false, h3, if_true,
          List.filter_cons, hnc, if_true, htake, List.take_succ_cons, List.take_zero]
      · have hlen2 : (acc ++ [c]).length < 3 := by omega
        have hsplit : 3 - acc.length = (3 - (acc ++ [c]).length) + 1 := by
          simp only [List.length_append, List.length_cons, List.length_nil]
          omega
        simp only [suggLoop, hcf, Bool.false_eq_true, if_false, h3,
          List.filter_cons, hnc, if_true]
        rw [ih (acc ++ [c]) hlen2, hsplit, List.take_succ_cons]
        simp

/-- `generateSuggestedTimes` in closed form: the first three free fixed-hour
slots, or the unconditional next-day 09:00 fallback when there are none. -/
theorem generateSuggestedTimes_eq (s e off : Int) (ex : List GEvent) :
    generateSuggestedTimes s e ex off
      = (if freeSlots s e ex off = [] then [jsSetHours (s + 86400000) off 9 0]
         else (freeSlots s e ex off).take 3) := by
  have h := suggLoop_take (e - s) ex (hourCandidates s off) [] (by decide)
  simp only [List.nil_append, List.length_nil, Nat.sub_zero] at h
  have hfs : (hourCandidates s off).filter (fun c => noConf (e - s) ex c) = freeSlots s e ex off := rfl
  rw [hfs] at h
  simp only [generateSuggestedTimes, h]
  cases hfree : freeSlots s e ex off with
  | nil => simp
  | cons a t => simp

/-! ## Claim theorems -/

/-- Claim C1 (code-bug evaluation): with the OpenAI strategy configured and the
completion call succeeding with a response that contains no JSON object,
`processTextToEvent` evaluates to `none` — the JavaScript function returns
`undefined` because the OpenAI branch falls off the end of the `try` block
instead of invoking the deterministic fallback, contradicting the claim (and
the source's own "Fall through to fallback" comment) that every generative
failure is converted into trying the next strategy. -/
theorem c1_openai_failure_returns_undefined :
    processTextToEvent true false (CallOut.ok "Sorry, I cannot help with that.")
      (fun _ => none) "team meeting tomorrow" 0 0 none = none := by decide

/-- Claim C2 (counterexample): the non-empty input `"meeting for 0 hours"`
resolves duration 0, so the deterministic path returns an event with
`start = end`, refuting strict `start < end`. -/
theorem c2_counterexample_zero_hours :
    "meeting for 0 hours" ≠ "" ∧
    ¬ ((createSmartFallback "meeting for 0 hours" 0 0 none).start
        < (createSmartFallback "meeting for 0 hours" 0 0 none).endT) := by decide

/-- Claim C2 (amended): on the deterministic path `start ≤ end` always holds,
and `start < end` holds whenever the resolved duration is non-zero; a text
whose duration phrase resolves to 0 hours yields `start = end`. -/
theorem c2_amended_start_le_end (text : String) (now off : Int) (tz : Option String)
    (hnow : 0 ≤ now ∧ now ≤ 4102444800000)
    (hoff : -50400000 ≤ off ∧ off ≤ 50400000) :
    (createSmartFallback text now off tz).start ≤ (createSmartFallback text now off tz).endT ∧
    (durationHoursOf text ≠ 0 →
      (createSmartFallback text now off tz).start < (createSmartFallback text now off tz).endT) := by
  rw [createSmartFallback_start, createSmartFallback_endT]
  by_cases h : dateInRange (timeOf text (dateOf text now (now + 86400000)) off
      + (durationHoursOf text : Int) * 3600000) = true
  · rw [if_pos h]
    constructor
    · have : (0 : Int) ≤ (durationHoursOf text : Int) := Int.ofNat_nonneg _
      omega
    · intro hd
      have : 1 ≤ (durationHoursOf text : Int) := by exact_mod_cast Nat.one_le_iff_ne_zero.mpr hd
      omega
  · rw [if_neg h]
    constructor
    · omega
    · intro _; omega

/-- Claim C2 amended, witness at a concrete input. -/
theorem c2_amended_start_le_end_witness :
    (createSmartFallback "a" 0 0 none).start ≤ (createSmartFallback "a" 0 0 none).endT ∧
    (createSmartFallback "a" 0 0 none).start < (createSmartFallback "a" 0 0 none).endT := by
  have h := c2_amended_start_le_end "a" 0 0 none (by decide) (by decide)
  exact ⟨h.1, h.2 (by decide)⟩

/-- Claim C3 (counterexample): in a UTC+1 process timezone, an all-day event on
day 0 is tested under the code's UTC-midnight expansion `[0, 86400000)`, so a
request for local 00:00-01:00 of that day (UTC instants `[-3600000, 0)`) is
reported available — while the claimed local-midnight expansion
`[-3600000, 82800000)` does overlap that request, and differs from the
interval the code actually tests. -/
theorem c3_counterexample_utc_expansion :
    (checkAvailability (some [⟨GTime.allDay 0, GTime.allDay 1⟩]) (-3600000) 0 3600000).isAvailable = true ∧
    (checkAvailability (some [⟨GTime.allDay 0, GTime.allDay 1⟩]) (-3600000) 0 3600000).conflicts = [] ∧
    overlapsI (allDayLocalExpandSpec 0 1 3600000) ⟨-3600000, 0⟩ = true ∧
    evInterval ⟨GTime.allDay 0, GTime.allDay 1⟩ ≠ allDayLocalExpandSpec 0 1 3600000 := by decide

/-- Claim C3 (amended): before any overlap comparison, an all-day event (one
specified by date only) is expanded to the half-open interval from UTC
midnight of its listed start date to UTC midnight of its listed end date —
no timezone conversion is applied — and the conflicts the check returns are
exactly the events whose interval, so expanded, overlaps the request. -/
theorem c3_amended_allday_utc_expansion (evs : List GEvent) (s e off : Int) :
    (checkAvailability (some evs) s e off).conflicts
      = evs.filter (fun ev => overlapsI (evInterval ev) ⟨s, e⟩) ∧
    (∀ d dEnd : Int, evInterval ⟨GTime.allDay d, GTime.allDay dEnd⟩
      = ⟨d * 86400000, dEnd * 86400000⟩) := by
  constructor
  · cases evs with
    | nil => simp [checkAvailability]
    | cons a t =>
      simp only [checkAvailability, List.isEmpty_cons, Bool.false_eq_true, if_false]
      by_cases hC : ((a :: t).filter (fun ev => overlapsI (evInterval ev) ⟨s, e⟩)).isEmpty = true
      · rw [if_pos hC]
        rw [List.isEmpty_iff] at hC
        exact hC.symm
      · rw [if_neg hC]
  · intro d dEnd; rfl

/-- Claim C4 (counterexample): on the scenario input the deterministic
extractor's location is `"the"`, not `"Arc Gym"`: the first location pattern's
terminator accepts a bare whitespace, so the lazy capture stops at the first
word after `"at"`, and no capitalization is ever applied to locations. -/
theorem c4_counterexample_location :
    (createSmartFallback "gym session tomorrow for 2 hours at the arc gym" 0 (-18000000) none).location = "the" ∧
    (createSmartFallback "gym session tomorrow for 2 hours at the arc gym" 0 (-18000000) none).location ≠ "Arc Gym" := by decide

/-- Claim C4 (amended): with reference instant 0 (1970-01-01T00:00Z, i.e.
1969-12-31 19:00 local) and process timezone UTC-5 (`off = -18000000`), the
deterministic extractor on `"gym session tomorrow for 2 hours at the arc gym"`
yields title `"Gym Session"`, a duration of exactly 2 hours, a start at 14:00
local time on the day after the reference date (UTC instant 68400000), and
location `"the"` (not `"Arc Gym"`). -/
theorem c4_amended_gym_scenario :
    (createSmartFallback "gym session tomorrow for 2 hours at the arc gym" 0 (-18000000) none).title = "Gym Session" ∧
    (createSmartFallback "gym session tomorrow for 2 hours at the arc gym" 0 (-18000000) none).endT
      - (createSmartFallback "gym session tomorrow for 2 hours at the arc gym" 0 (-18000000) none).start = 7200000 ∧
    (createSmartFallback "gym session tomorrow for 2 hours at the arc gym" 0 (-18000000) none).start
      = jsSetHours (0 + 86400000) (-18000000) 14 0 ∧
    (createSmartFallback "gym session tomorrow for 2 hours at the arc gym" 0 (-18000000) none).start = 68400000 ∧
    (createSmartFallback "gym session tomorrow for 2 hours at the arc gym" 0 (-18000000) none).location = "the" := by decide

/-- Claim C5: `generateSuggestedTimes` scans the fixed candidate start hours
9, 11, 13, 15, 17 of the candidate's day in ascending order; it returns at
most 3 entries and stops once 3 are collected (its result is the first three
conflict-free candidates); every entry returned from the scan starts an
interval of the original duration overlapping no supplied event; and when the
scan yields nothing it returns exactly one fallback suggestion at 09:00 the
next day, unconditionally.  The range hypotheses pin the inputs to the domain
where JavaScript `Date` arithmetic is exact. -/
theorem c5_suggestion_scan (s e off : Int) (ex : List GEvent)
    (hs : 0 ≤ s ∧ s ≤ 4102444800000) (he : 0 ≤ e ∧ e ≤ 4102444800000)
    (hoff : -50400000 ≤ off ∧ off ≤ 50400000) :
    hourCandidates s off = [jsSetHours s off 9 0, jsSetHours s off 11 0,
      jsSetHours s off 13 0, jsSetHours s off 15 0, jsSetHours s off 17 0] ∧
    generateSuggestedTimes s e ex off
      = (if freeSlots s e ex off = [] then [jsSetHours (s + 86400000) off 9 0]
         else (freeSlots s e ex off).take 3) ∧
    (generateSuggestedTimes s e ex off).length ≤ 3 ∧
    (∀ t ∈ generateSuggestedTimes s e ex off, freeSlots s e ex off ≠ [] →
      noConf (e - s) ex t = true) ∧
    (freeSlots s e ex off = [] →
      generateSuggestedTimes s e ex off = [jsSetHours (s + 86400000) off 9 0]) := by
  refine ⟨rfl, generateSuggestedTimes_eq s e off ex, ?_, ?_, ?_⟩
  · rw [generateSuggestedTimes_eq s e off ex]
    by_cases hfree : freeSlots s e ex off = []
    · simp [hfree]
    · rw [if_neg hfree]
      rw [List.length_take]
      omega
  · intro t ht hfree
    rw [generateSuggestedTimes_eq s e off ex, if_neg hfree] at ht
    have hmem : t ∈ freeSlots s e ex off := List.mem_of_mem_take ht
    exact (List.mem_filter.mp hmem).2
  · intro hfree
    rw [generateSuggestedTimes_eq s e off ex, if_pos hfree]

/-- Claim C5, witness at a concrete input. -/
theorem c5_suggestion_scan_witness :
    generateSuggestedTimes 0 3600000 [] 0
      = (if freeSlots 0 3600000 [] 0 = [] then [jsSetHours (0 + 86400000) 0 9 0]
         else (freeSlots 0 3600000 [] 0).take 3) :=
  (c5_suggestion_scan 0 3600000 0 [] (by decide) (by decide) (by decide)).2.1

/-- Claim C6: when the calendar read fails (the listing call throws),
`checkAvailability` fails open — it returns `isAvailable = true` with an
empty conflicts list and no suggestions, and propagates no error. -/
theorem c6_read_failure_fails_open (s e off : Int) :
    checkAvailability none s e off = ⟨true, [], none⟩ := rfl

/-- Claim C7: the overlap test is exactly `a.start < b.end AND a.end > b.start`
(half-open semantics), it is symmetric, and for any instants `a < b < c` the
adjacent intervals `[a,b)` and `[b,c)` do not overlap. -/
theorem c7_overlap_halfopen_symmetric :
    (∀ x y : TInterval, overlapsI x y
      = (decide (x.start < y.endT) && decide (x.endT > y.start))) ∧
    (∀ x y : TInterval, overlapsI x y = overlapsI y x) ∧
    (∀ a b c : Int, a < b → b < c → overlapsI ⟨a, b⟩ ⟨b, c⟩ = false) := by
  refine ⟨fun x y => rfl, fun x y => ?_, fun a b c hab hbc => ?_⟩
  · simp only [overlapsI, gt_iff_lt]
    exact Bool.and_comm _ _
  · simp [overlapsI]

/-- Claim C7, witness at concrete instants. -/
theorem c7_overlap_halfopen_symmetric_witness :
    overlapsI ⟨0, 3600000⟩ ⟨3600000, 7200000⟩ = false :=
  c7_overlap_halfopen_symmetric.2.2 0 3600000 7200000 (by decide) (by decide)

/-- Claim C8: in every result of `checkAvailability`, `isAvailable` is true
exactly when the conflicts list is empty; whenever the conflicts list is
empty the whole result is `⟨true, [], none⟩` (no suggestions — the field is
absent, the suggestion search untouched); and in particular when no supplied
event overlaps the candidate (including an empty list) the result is
`⟨true, [], none⟩`. -/
theorem c8_available_iff_no_conflicts (readResult : Option (List GEvent)) (s e off : Int) :
    ((checkAvailability readResult s e off).isAvailable = true ↔
      (checkAvailability readResult s e off).conflicts = []) ∧
    ((checkAvailability readResult s e off).conflicts = [] →
      checkAvailability readResult s e off = ⟨true, [], none⟩) ∧
    (∀ evs, readResult = some evs →
      evs.filter (fun ev => overlapsI (evInterval ev) ⟨s, e⟩) = [] →
      checkAvailability readResult s e off = ⟨true, [], none⟩) := by
  cases readResult with
  | none =>
    refine ⟨by simp [checkAvailability], fun _ => rfl, fun evs hevs => ?_⟩
    exact absurd hevs (by simp)
  | some evs =>
    cases evs with
    | nil => exact ⟨by simp [checkAvailability], fun _ => rfl, fun evs2 hevs2 _ => rfl⟩
    | cons a t =>
      by_cases hC : ((a :: t).filter (fun ev => overlapsI (evInterval ev) ⟨s, e⟩)).isEmpty = true
      · have hres : checkAvailability (some (a :: t)) s e off = ⟨true, [], none⟩ := by
          simp only [checkAvailability, List.isEmpty_cons, Bool.false_eq_true, if_false]
          rw [if_pos hC]
        refine ⟨by simp [hres], fun _ => hres, fun evs2 hevs2 _ => ?_⟩
        exact hres
      · have hCne : ((a :: t).filter (fun ev => overlapsI (evInterval ev) ⟨s, e⟩)) ≠ [] := by
          intro hnil
          rw [List.isEmpty_iff] at hC
          exact hC hnil
        have hres : checkAvailability (some (a :: t)) s e off
            = ⟨false, (a :: t).filter (fun ev => overlapsI (evInterval ev) ⟨s, e⟩),
               some (generateSuggestedTimes s e (a :: t) off)⟩ := by
          simp only [checkAvailability, List.isEmpty_cons, Bool.false_eq_true, if_false]
          rw [if_neg hC]
        refine ⟨by simp [hres, hCne], fun hnil => ?_, fun evs2 hevs2 hfil => ?_⟩
        · rw [hres] at hnil
          exact absurd hnil hCne
        · cases Option.some.inj hevs2
          exact absurd hfil hCne

/-- Claim C8, witness at a concrete input. -/
theorem c8_available_iff_no_conflicts_witness :
    checkAvailability (some []) 0 3600000 0 = ⟨true, [], none⟩ :=
  (c8_available_iff_no_conflicts (some []) 0 3600000 0).2.2 [] rfl (by decide)

/-- Claim C9 (counterexample): the text `"3000000000000 hours"` resolves a
duration of 3000000000000 hours, but the returned event's `end - start` is
one hour, not the resolved duration: the end instant would exceed the
JavaScript `Date` range, so the source's `isNaN` guard replaces it with
`start + 1 hour`. -/
theorem c9_counterexample_huge_duration :
    durMatchOpt "3000000000000 hours" = some 3000000000000 ∧
    (createSmartFallback "3000000000000 hours" 0 0 none).endT
      - (createSmartFallback "3000000000000 hours" 0 0 none).start = 3600000 ∧
    (3600000 : Int) ≠ (3000000000000 : Int) * 3600000 := by decide

/-- Claim C9 (amended): on the deterministic path, `end - start` equals the
resolved duration `d` (the first `"<n> hour(s)"` phrase, default 1 hour when
no phrase is present, i.e. when `durMatchOpt` is `none`) whenever
`start + d` is within the representable `Date` range; when `d` is so large
that the end instant would be unrepresentable, `end - start` is 1 hour. -/
theorem c9_amended_duration_equation (text : String) (now off : Int) (tz : Option String)
    (hnow : 0 ≤ now ∧ now ≤ 4102444800000)
    (hoff : -50400000 ≤ off ∧ off ≤ 50400000) :
    (dateInRange ((createSmartFallback text now off tz).start
        + (durationHoursOf text : Int) * 3600000) = true →
      (createSmartFallback text now off tz).endT - (createSmartFallback text now off tz).start
        = (durationHoursOf text : Int) * 3600000) ∧
    (dateInRange ((createSmartFallback text now off tz).start
        + (durationHoursOf text : Int) * 3600000) = false →
      (createSmartFallback text now off tz).endT - (createSmartFallback text now off tz).start
        = 3600000) := by
  rw [createSmartFallback_start, createSmartFallback_endT]
  constructor
  · intro h
    rw [if_pos h]
    ring
  · intro h
    rw [if_neg (by rw [h]; exact Bool.false_ne_true)]
    ring

/-- Claim C9 amended, witness at a concrete input. -/
theorem c9_amended_duration_equation_witness :
    (createSmartFallback "a" 0 0 none).endT - (createSmartFallback "a" 0 0 none).start
      = (durationHoursOf "a" : Int) * 3600000 := by
  have h := c9_amended_duration_equation "a" 0 0 none (by decide) (by decide)
  exact h.1 (by decide)

/-- Claim C10: the deterministic fallback extractor never reads its timezone
argument — for any two timezone identifiers (and any text and reference
instant under the same process-local offset) it returns identical events. -/
theorem c10_timezone_argument_ignored (text : String) (now off : Int) (tz1 tz2 : Option String) :
    createSmartFallback text now off tz1 = createSmartFallback text now off tz2 := rfl
